import Mathlib

/-!
Verification development for the bucketbench benchmark execution engine
(`benches` package, `CustomBench`) and the Docker driver's `Clean` method.

The Go source is shallowly embedded: driver calls are modelled by a record
of pure functions (`Driver`), Go maps by association lists with Go map
update semantics, wall-clock time and per-thread driver construction by an
explicit environment (`RunEnv`), and the stateful coordinator `Run` both as
a pre-state to post-state function (`CustomBench.Run`) and as an event
trace (`runTrace`) for ordering properties.
-/

namespace Bucketbench

/-- Durations are abstract (nanosecond counts as reported by the driver). -/
abbrev Duration := Nat

/-- Container handles; the driver `Create` call produces one.  Concrete
drivers use richer metadata; the worker loop treats it as opaque, so a
string token suffices. -/
abbrev Container := String

/-- Result triple `(out, elapsed, err)` returned by the timed driver
operations (`Run`, `Stop`, `Remove`, `Pause`, `Unpause`, `Wait`,
`Execsync`).  `err = true` models a non-nil Go error. -/
structure OpResult where
  out : String
  elapsed : Duration
  err : Bool
deriving Repr, DecidableEq

/-- The driver capability contract consumed by the worker loop
(`driver.Driver`), as a record of pure outcome functions.  `create`
takes `(name, image, cmdOverride, detached, trace)` and returns `none`
on error.  `stats` returns `true` when `Stats` successfully returned a
stream reader and `false` when it returned an error. -/
structure Driver where
  create : String → String → String → Bool → Bool → Option Container
  run : Container → OpResult
  stop : Container → OpResult
  remove : Container → OpResult
  pause : Container → OpResult
  unpause : Container → OpResult
  wait : Container → OpResult
  statsCall : Container → Bool
  execsync : Container → List String → OpResult

/-- Modelled from the spec: the constant `driver.ContainerNamePrefix` is not
under `src/` (only its use in `runThread` and the matching filter
`name=bb-ctr-` in `docker.go` are).  The spec names the shared constant
`bb-ctr-` with generated names `{prefix}-{thread}-{iteration}`; the source
formats names as `Sprintf("%s-%d-%d", prefix, threadNum, i)`, so the root
is `bb-ctr` and names read `bb-ctr-<thread>-<iter>`. -/
def containerNameRoot : String := "bb-ctr"

/-- Container naming: `fmt.Sprintf("%s-%d-%d", driver.ContainerNamePrefix, threadNum, i)`. -/
def containerName (threadNum i : Nat) : String :=
  containerNameRoot ++ "-" ++ toString threadNum ++ "-" ++ toString i

/-- ASCII lowercasing of one character, as `strings.ToLower` does on the
ASCII command verbs the worker loop dispatches on. -/
def lowerChar (c : Char) : Char :=
  if 'A' ≤ c ∧ c ≤ 'Z' then Char.ofNat (c.toNat + 32) else c

/-- Model of `strings.ToLower` (ASCII fragment, faithful for command verbs). -/
def toLowerStr (s : String) : String :=
  String.mk (s.data.map lowerChar)

/-- Split a character list at every space, as Go `strings.Split(s, " ")`. -/
def splitSpacesAux : List Char → List Char → List (List Char)
  | [], acc => [acc.reverse]
  | c :: rest, acc =>
      if c = ' ' then acc.reverse :: splitSpacesAux rest []
      else splitSpacesAux rest (c :: acc)

/-- Go `strings.Split(s, " ")`. -/
def splitSpaces (s : String) : List String :=
  (splitSpacesAux s.data []).map String.mk

/-- The argument parsing at the top of the command loop:
`strings.SplitN(cmd, " ", 2)`; when two parts result, the command becomes
the head and the args are `strings.Split(parts[1], " ")` — which together
amount to the full space-split with head and tail. -/
def parseCommand (raw : String) : String × List String :=
  match splitSpaces raw with
  | [] => (raw, [])
  | [w] => (w, [])
  | w :: rest => (w, rest)

/-- Go map assignment `m[k] = v` on an association-list model. -/
def mapSet {α : Type} (m : List (String × α)) (k : String) (v : α) :
    List (String × α) :=
  if m.any (fun p => p.1 == k) then
    m.map (fun p => if p.1 == k then (p.1, v) else p)
  else m ++ [(k, v)]

/-- Go map increment `m[k]++` (missing keys read as zero). -/
def mapIncr (m : List (String × Nat)) (k : String) : List (String × Nat) :=
  if m.any (fun p => p.1 == k) then
    m.map (fun p => if p.1 == k then (p.1, p.2 + 1) else p)
  else m ++ [(k, 1)]

/-- Keys of an association-list map. -/
def keys {α : Type} (m : List (String × α)) : List String :=
  m.map Prod.fst

/-- The per-iteration statistics record (`RunStatistics`). -/
structure RunStatistics where
  Durations : List (String × Duration)
  Errors : List (String × Nat)
  Timestamp : Nat
deriving Repr, DecidableEq

/-- The `(durations, errors)` accumulator pair local to one iteration. -/
abbrev DurErr := List (String × Duration) × List (String × Nat)

/-- The `log_error` closure in `runThread`: on a non-nil error increment
`errors[cmd]`; in every case record `durations[cmd] = elapsed`. -/
def logError (cmd : String) (r : OpResult) (de : DurErr) : DurErr :=
  let errs := if r.err then mapIncr de.2 cmd else de.2
  (mapSet de.1 cmd r.elapsed, errs)

/-- The `switch strings.ToLower(cmd)` dispatch of the worker loop, for one
parsed command head `cmd` and argument list `args`.  On the
`metrics`/`stats` branch a successful `Stats` call spawns a detached
drain goroutine and records nothing; a failed call increments
`errors["metrics"]` only.  Unknown verbs are logged and skipped. -/
def dispatchVerb (runner : Driver) (ctr : Container) (cmd : String)
    (args : List String) (de : DurErr) : DurErr :=
  match toLowerStr cmd with
  | "run" | "start" => logError "run" (runner.run ctr) de
  | "stop" | "kill" => logError "stop" (runner.stop ctr) de
  | "remove" | "erase" | "delete" => logError "remove" (runner.remove ctr) de
  | "pause" => logError cmd (runner.pause ctr) de
  | "unpause" | "resume" => logError "resume" (runner.unpause ctr) de
  | "wait" => logError cmd (runner.wait ctr) de
  | "metrics" | "stats" =>
      if runner.statsCall ctr then de else (de.1, mapIncr de.2 "metrics")
  | "execsync" => logError cmd (runner.execsync ctr args) de
  | _ => de

/-- One raw command string of the sequence: parse, then dispatch. -/
def execCommand (runner : Driver) (ctr : Container) (raw : String)
    (de : DurErr) : DurErr :=
  let p := parseCommand raw
  dispatchVerb runner ctr p.1 p.2 de

/-- The command loop of one iteration after a successful `Create`,
producing the record sent on the statistics channel with timestamp
`ts` (`time.Now().UTC()` at emission). -/
def iterationBody (runner : Driver) (ctr : Container)
    (commands : List String) (ts : Nat) : RunStatistics :=
  let de := commands.foldl (fun de c => execCommand runner ctr c de) ([], [])
  { Durations := de.1, Errors := de.2, Timestamp := ts }

/-- One iteration of `runThread`: derive the container name, call
`Create`; on error the worker aborts (`none`), otherwise run the command
loop and emit a record. -/
def runIteration (runner : Driver) (imageInfo cmdOverride : String)
    (tr : Bool) (threadNum : Nat) (commands : List String)
    (now : Nat → Nat) (i : Nat) : Option RunStatistics :=
  match runner.create (containerName threadNum i) imageInfo cmdOverride true tr with
  | none => none
  | some ctr => some (iterationBody runner ctr commands (now i))

/-- The iteration loop of `runThread` starting at iteration `i` with `k`
iterations remaining; a `Create` failure aborts the whole worker (the Go
`return` inside the loop). -/
def runThreadFrom (runner : Driver) (imageInfo cmdOverride : String)
    (tr : Bool) (threadNum : Nat) (commands : List String)
    (now : Nat → Nat) : Nat → Nat → List RunStatistics
  | _, 0 => []
  | i, k + 1 =>
      match runIteration runner imageInfo cmdOverride tr threadNum commands now i with
      | none => []
      | some r =>
          r :: runThreadFrom runner imageInfo cmdOverride tr threadNum commands now (i + 1) k

/-- What one worker leaves behind: the records it sent on its channel,
and whether its deferred cleanup closed the driver and the channel. -/
structure WorkerResult where
  records : List RunStatistics
  driverClosed : Bool
  channelClosed : Bool
deriving Repr, DecidableEq

/-- The worker `runThread`: run the iteration loop; the deferred cleanup runs on
every exit path (normal completion or abort), closing the driver and the
statistics channel. -/
def runThread (runner : Driver) (imageInfo cmdOverride : String) (tr : Bool)
    (threadNum iterations : Nat) (commands : List String)
    (now : Nat → Nat) : WorkerResult :=
  { records := runThreadFrom runner imageInfo cmdOverride tr threadNum commands now 0 iterations,
    driverClosed := true,
    channelClosed := true }

/-- Benchmark lifecycle state. -/
inductive State where
  | Created
  | Running
  | Completed
deriving Repr, DecidableEq

/-- Which error `Run` returned, when it returned one: a per-thread
`driver.New` failure, or a failure of the final `Clean`. -/
inductive RunError where
  | newDriverFailed
  | cleanFailed
deriving Repr, DecidableEq

/-- The `CustomBench` fields the claims mention (the embedded driver
handle and config live in `RunEnv`). -/
structure CustomBench where
  imageInfo : String
  cmdOverride : String
  tr : Bool
  stats : List RunStatistics
  elapsed : Duration
  state : State
deriving Repr, DecidableEq

/-- Environment of one `Run` invocation: the per-thread driver factory
(`driver.New`), the timestamp oracle (thread, iteration) for each
record's `time.Now().UTC()`, the elapsed time observed at `time.Since`,
and whether the coordinator driver's final `Clean` fails. -/
structure RunEnv where
  factory : Nat → Option Driver
  now : Nat → Nat → Nat
  elapsed : Duration
  cleanErr : Bool

/-- The spawn loop's driver construction, threads `t, t+1, ...` for `k`
threads: `driver.New` per thread, failing the whole run at the first
failure (the Go early `return`). -/
def collectDriversFrom (factory : Nat → Option Driver) :
    Nat → Nat → Option (List Driver)
  | _, 0 => some []
  | t, k + 1 =>
      match factory t with
      | none => none
      | some d => (collectDriversFrom factory (t + 1) k).map (fun ds => d :: ds)

/-- The records worker `t` sends on its channel: `runThread` with the
driver the factory built for `t` (on the success path of `Run` the
factory result is always `some`; the `[]` default is unreachable there). -/
def workerRecords (env : RunEnv) (imageInfo cmdOverride : String) (tr : Bool)
    (t iterations : Nat) (commands : List String) : List RunStatistics :=
  match env.factory t with
  | some d => (runThread d imageInfo cmdOverride tr t iterations commands (env.now t)).records
  | none => []

/-- The channel drain of `Run`: channels consumed in thread-index order,
every record appended. -/
def runRecords (env : RunEnv) (imageInfo cmdOverride : String) (tr : Bool)
    (threads iterations : Nat) (commands : List String) : List RunStatistics :=
  ((List.range threads).map
    (fun t => workerRecords env imageInfo cmdOverride tr t iterations commands)).flatten

/-- The coordinator `CustomBench.Run` as a pre-state to post-state function.  On a
per-thread `driver.New` failure the run aborts with an error: the state
stays `Running`, `elapsed` is untouched and no records are appended.  On
the success path workers run and join, `elapsed` is recorded, the
channels are drained in thread order appending to `stats`, the state is
set to `Completed`, and the final `Clean` failure (if any) is returned. -/
def CustomBench.Run (cb : CustomBench) (env : RunEnv)
    (threads iterations : Nat) (commands : List String) :
    CustomBench × Option RunError :=
  match collectDriversFrom env.factory 0 threads with
  | none => ({ cb with state := State.Running }, some RunError.newDriverFailed)
  | some _ =>
      ({ cb with
          state := State.Completed,
          elapsed := env.elapsed,
          stats := cb.stats ++
            runRecords env cb.imageInfo cb.cmdOverride cb.tr threads iterations commands },
       if env.cleanErr then some RunError.cleanFailed else none)

/-- Accessor `CustomBench.Stats`: the aggregated vector when `Completed`, an empty
vector otherwise. -/
def CustomBench.Stats (cb : CustomBench) : List RunStatistics :=
  if cb.state = State.Completed then cb.stats else []

/-- The observable steps of `Run`, in program order, for temporal claims. -/
inductive RunEvent where
  | setRunning
  | newDriver (t : Nat)
  | spawnWorker (t : Nat)
  | joinWorkers
  | setElapsed
  | drainChannel (t : Nat)
  | setCompleted
  | finalClean
deriving Repr, DecidableEq

/-- Spawn-loop events from thread `t` for `k` threads: each thread first
constructs its driver, then is spawned; a construction failure stops the
loop (flag `false` = early error return). -/
def spawnPhase (factory : Nat → Option Driver) :
    Nat → Nat → List RunEvent × Bool
  | _, 0 => ([], true)
  | t, k + 1 =>
      match factory t with
      | none => ([RunEvent.newDriver t], false)
      | some _ =>
          let rest := spawnPhase factory (t + 1) k
          (RunEvent.newDriver t :: RunEvent.spawnWorker t :: rest.1, rest.2)

/-- The event trace of one `Run` call, in the source's statement order:
set `Running`; spawn loop (early return on factory failure); join;
record elapsed; drain channels in thread order; set `Completed`; final
`Clean`. -/
def runTrace (env : RunEnv) (threads : Nat) : List RunEvent :=
  let sp := spawnPhase env.factory 0 threads
  if sp.2 then
    RunEvent.setRunning ::
      sp.1 ++ [RunEvent.joinWorkers, RunEvent.setElapsed] ++
      (List.range threads).map RunEvent.drainChannel ++
      [RunEvent.setCompleted, RunEvent.finalClean]
  else
    RunEvent.setRunning :: sp.1

/-- Outcome of one `utils.ExecShellCmd` invocation inside
`DockerDriver.Clean`: combined output text and whether the command
returned an error. -/
structure ShellResult where
  out : String
  err : Bool
deriving Repr, DecidableEq

/-- List-level matching of a pattern at the head. -/
def headMatches : List Char → List Char → Bool
  | [], _ => true
  | _ :: _, [] => false
  | a :: as, b :: bs => a == b && headMatches as bs

/-- Substring search over character lists. -/
def containsAux (pat : List Char) : List Char → Bool
  | [] => headMatches pat []
  | c :: rest => headMatches pat (c :: rest) || containsAux pat rest

/-- Go `strings.Contains(s, pat)`. -/
def strContains (s pat : String) : Bool :=
  containsAux pat.data s.data

/-- The warnings `DockerDriver.Clean` logs: one per failed shell command,
suppressed when the failure is only "no containers matched" (output
contains `requires at least 1 argument`). -/
def dockerCleanWarnings (stopRes rmRes : ShellResult) : List String :=
  (if stopRes.err && !(strContains stopRes.out "requires at least 1 argument")
   then ["Docker: Failed to stop running bb-ctr-* containers"] else []) ++
  (if rmRes.err && !(strContains rmRes.out "requires at least 1 argument")
   then ["Docker: Failed to remove exited bb-ctr-* containers"] else [])

/-- Embedding of `DockerDriver.Clean` from `src/driver/docker.go`, as a function of the
two shell-command outcomes: the warnings it logs and the error it
returns to the caller. -/
def dockerClean (stopRes rmRes : ShellResult) : List String × Option String :=
  (dockerCleanWarnings stopRes rmRes, none)

/-- A driver on which every operation succeeds (the "mock driver that
always succeeds" of the spec's testable properties). -/
def Driver.alwaysSucceeds (d : Driver) : Prop :=
  (∀ n img c det tr, (d.create n img c det tr).isSome) ∧
  (∀ ctr, (d.run ctr).err = false) ∧
  (∀ ctr, (d.stop ctr).err = false) ∧
  (∀ ctr, (d.remove ctr).err = false) ∧
  (∀ ctr, (d.pause ctr).err = false) ∧
  (∀ ctr, (d.unpause ctr).err = false) ∧
  (∀ ctr, (d.wait ctr).err = false) ∧
  (∀ ctr, d.statsCall ctr = true) ∧
  (∀ ctr args, (d.execsync ctr args).err = false)

/-- Concrete always-succeeding mock driver used as evaluation witness. -/
def okDriver : Driver :=
  { create := fun n _ _ _ _ => some n
    run := fun _ => ⟨"", 1, false⟩
    stop := fun _ => ⟨"", 1, false⟩
    remove := fun _ => ⟨"", 1, false⟩
    pause := fun _ => ⟨"", 1, false⟩
    unpause := fun _ => ⟨"", 1, false⟩
    wait := fun _ => ⟨"", 1, false⟩
    statsCall := fun _ => true
    execsync := fun _ _ => ⟨"", 1, false⟩ }

theorem okDriver_alwaysSucceeds : okDriver.alwaysSucceeds :=
  ⟨fun _ _ _ _ _ => rfl, fun _ => rfl, fun _ => rfl, fun _ => rfl, fun _ => rfl,
   fun _ => rfl, fun _ => rfl, fun _ => rfl, fun _ _ => rfl⟩

/-- Concrete run environment: every thread gets the mock driver, the
final `Clean` succeeds. -/
def okEnv : RunEnv :=
  { factory := fun _ => some okDriver
    now := fun _ _ => 0
    elapsed := 5
    cleanErr := false }

/-- A freshly constructed benchmark instance. -/
def cb0 : CustomBench :=
  { imageInfo := "img"
    cmdOverride := ""
    tr := false
    stats := []
    elapsed := 0
    state := State.Created }

/-- Mock driver whose `Create` fails exactly on iteration 2 of thread 1. -/
def failCreateDriver : Driver :=
  { okDriver with
      create := fun n _ _ _ _ => if n = containerName 1 2 then none else some n }

/-- Environment whose per-thread driver construction always fails. -/
def failEnv : RunEnv :=
  { okEnv with factory := fun _ => none }

/-! ### Map lemmas -/

theorem keys_mapSet {α : Type} (m : List (String × α)) (k : String) (v : α) :
    keys (mapSet m k v) =
      if m.any (fun p => p.1 == k) then keys m else keys m ++ [k] := by
  unfold mapSet keys
  by_cases h : m.any (fun p => p.1 == k) = true
  · rw [if_pos h, if_pos h, List.map_map]
    exact List.map_congr_left
      (fun p _ => by simp only [Function.comp_apply]; split <;> rfl)
  · rw [if_neg h, if_neg h]
    simp

theorem keys_mapIncr (m : List (String × Nat)) (k : String) :
    keys (mapIncr m k) =
      if m.any (fun p => p.1 == k) then keys m else keys m ++ [k] := by
  unfold mapIncr keys
  by_cases h : m.any (fun p => p.1 == k) = true
  · rw [if_pos h, if_pos h, List.map_map]
    exact List.map_congr_left
      (fun p _ => by simp only [Function.comp_apply]; split <;> rfl)
  · rw [if_neg h, if_neg h]
    simp

theorem mem_keys_mapSet {α : Type} (m : List (String × α)) (k a : String) (v : α) :
    a ∈ keys (mapSet m k v) ↔ a ∈ keys m ∨ a = k := by
  rw [keys_mapSet]
  by_cases h : m.any (fun p => p.1 == k) = true
  · rw [if_pos h]
    have hk : k ∈ keys m := by
      rcases List.any_eq_true.mp h with ⟨p, hp, hbeq⟩
      have hpk : p.1 = k := eq_of_beq hbeq
      exact hpk ▸ (List.mem_map.mpr ⟨p, hp, rfl⟩)
    constructor
    · exact Or.inl
    · rintro (ha | rfl)
      · exact ha
      · exact hk
  · rw [if_neg h]
    simp

theorem mem_keys_mapIncr (m : List (String × Nat)) (k a : String) :
    a ∈ keys (mapIncr m k) ↔ a ∈ keys m ∨ a = k := by
  rw [keys_mapIncr]
  by_cases h : m.any (fun p => p.1 == k) = true
  · rw [if_pos h]
    have hk : k ∈ keys m := by
      rcases List.any_eq_true.mp h with ⟨p, hp, hbeq⟩
      have hpk : p.1 = k := eq_of_beq hbeq
      exact hpk ▸ (List.mem_map.mpr ⟨p, hp, rfl⟩)
    constructor
    · exact Or.inl
    · rintro (ha | rfl)
      · exact ha
      · exact hk
  · rw [if_neg h]
    simp

theorem mem_keys_logError (cmd : String) (r : OpResult) (de : DurErr) (a : String) :
    a ∈ keys (logError cmd r de).1 ↔ a ∈ keys de.1 ∨ a = cmd := by
  unfold logError
  exact mem_keys_mapSet de.1 cmd a r.elapsed

/-! ### Worker-loop lemmas -/

theorem length_filterMap_of_forall_isSome {α β : Type} (f : α → Option β)
    (l : List α) (h : ∀ a ∈ l, (f a).isSome) :
    (l.filterMap f).length = l.length := by
  induction l with
  | nil => rfl
  | cons a l ih =>
      rcases Option.isSome_iff_exists.mp (h a (List.mem_cons_self a l)) with ⟨b, hb⟩
      rw [List.filterMap_cons, hb, List.length_cons, List.length_cons,
        ih (fun x hx => h x (List.mem_cons_of_mem a hx))]

theorem runThreadFrom_all_ok (runner : Driver) (imageInfo cmdOverride : String)
    (tr : Bool) (threadNum : Nat) (commands : List String) (now : Nat → Nat)
    (k : Nat) :
    ∀ i : Nat,
      (∀ j, i ≤ j → j < i + k →
        (runner.create (containerName threadNum j) imageInfo cmdOverride true tr).isSome) →
      runThreadFrom runner imageInfo cmdOverride tr threadNum commands now i k =
        (List.range' i k).filterMap
          (runIteration runner imageInfo cmdOverride tr threadNum commands now) := by
  induction k with
  | zero => intro i _; rfl
  | succ k ih =>
      intro i h
      rcases Option.isSome_iff_exists.mp (h i (Nat.le_refl i) (by omega)) with ⟨c, hc⟩
      have hiter : runIteration runner imageInfo cmdOverride tr threadNum commands now i =
          some (iterationBody runner c commands (now i)) := by
        unfold runIteration; rw [hc]
      rw [List.range'_succ, List.filterMap_cons, hiter]
      unfold runThreadFrom
      rw [hiter, ih (i + 1) (fun j h1 h2 => h j (by omega) (by omega))]

theorem runThreadFrom_fail_at (runner : Driver) (imageInfo cmdOverride : String)
    (tr : Bool) (threadNum : Nat) (commands : List String) (now : Nat → Nat)
    (m : Nat) (k : Nat) :
    ∀ i : Nat, i ≤ m → m < i + k →
      (∀ j, i ≤ j → j < m →
        (runner.create (containerName threadNum j) imageInfo cmdOverride true tr).isSome) →
      runner.create (containerName threadNum m) imageInfo cmdOverride true tr = none →
      runThreadFrom runner imageInfo cmdOverride tr threadNum commands now i k =
        (List.range' i (m - i)).filterMap
          (runIteration runner imageInfo cmdOverride tr threadNum commands now) := by
  induction k with
  | zero => intro i h1 h2; omega
  | succ k ih =>
      intro i h1 h2 hok hfail
      by_cases him : i = m
      · subst him
        have hiter : runIteration runner imageInfo cmdOverride tr threadNum commands now i = none := by
          unfold runIteration; rw [hfail]
        unfold runThreadFrom
        rw [hiter, Nat.sub_self]
        rfl
      · have hlt : i < m := by omega
        rcases Option.isSome_iff_exists.mp (hok i (Nat.le_refl i) hlt) with ⟨c, hc⟩
        have hiter : runIteration runner imageInfo cmdOverride tr threadNum commands now i =
            some (iterationBody runner c commands (now i)) := by
          unfold runIteration; rw [hc]
        have hmi : m - i = (m - (i + 1)) + 1 := by omega
        rw [hmi, List.range'_succ, List.filterMap_cons, hiter]
        unfold runThreadFrom
        rw [hiter, ih (i + 1) (by omega) (by omega)
          (fun j ha hb => hok j (by omega) hb) hfail]

theorem runThread_records_of_alwaysSucceeds (runner : Driver)
    (imageInfo cmdOverride : String) (tr : Bool) (threadNum iterations : Nat)
    (commands : List String) (now : Nat → Nat)
    (h : runner.alwaysSucceeds) :
    (runThread runner imageInfo cmdOverride tr threadNum iterations commands now).records.length
      = iterations := by
  unfold runThread
  rw [runThreadFrom_all_ok runner imageInfo cmdOverride tr threadNum commands now iterations 0
    (fun j _ _ => h.1 (containerName threadNum j) imageInfo cmdOverride true tr)]
  rw [length_filterMap_of_forall_isSome]
  · exact List.length_range' 0 1 iterations
  · intro j _
    unfold runIteration
    rcases Option.isSome_iff_exists.mp
      (h.1 (containerName threadNum j) imageInfo cmdOverride true tr) with ⟨c, hc⟩
    rw [hc]
    rfl

/-! ### Coordinator lemmas -/

theorem collectDriversFrom_isSome (factory : Nat → Option Driver) (k : Nat) :
    ∀ i : Nat, (∀ j, i ≤ j → j < i + k → (factory j).isSome) →
      (collectDriversFrom factory i k).isSome := by
  induction k with
  | zero => intro i _; rfl
  | succ k ih =>
      intro i h
      rcases Option.isSome_iff_exists.mp (h i (Nat.le_refl i) (by omega)) with ⟨d, hd⟩
      unfold collectDriversFrom
      rw [hd]
      rcases Option.isSome_iff_exists.mp (ih (i + 1) (fun j h1 h2 => h j (by omega) (by omega)))
        with ⟨ds, hds⟩
      rw [hds]
      rfl

theorem collectDriversFrom_eq_none (factory : Nat → Option Driver) (m : Nat)
    (k : Nat) :
    ∀ i : Nat, i ≤ m → m < i + k → factory m = none →
      collectDriversFrom factory i k = none := by
  induction k with
  | zero => intro i h1 h2; omega
  | succ k ih =>
      intro i h1 h2 hfail
      by_cases him : i = m
      · subst him
        unfold collectDriversFrom
        rw [hfail]
      · unfold collectDriversFrom
        cases hd : factory i with
        | none => rfl
        | some d =>
            rw [ih (i + 1) (by omega) (by omega) hfail]
            rfl

/-- Behaviour of `Run` on the success path of the spawn loop. -/
theorem Run_spec (cb : CustomBench) (env : RunEnv) (threads iterations : Nat)
    (commands : List String)
    (hf : ∀ t, t < threads → (env.factory t).isSome) :
    cb.Run env threads iterations commands =
      ({ cb with
          state := State.Completed,
          elapsed := env.elapsed,
          stats := cb.stats ++
            runRecords env cb.imageInfo cb.cmdOverride cb.tr threads iterations commands },
       if env.cleanErr then some RunError.cleanFailed else none) := by
  rcases Option.isSome_iff_exists.mp
    (collectDriversFrom_isSome env.factory threads 0 (fun j _ h2 => hf j (by omega)))
    with ⟨ds, hds⟩
  unfold CustomBench.Run
  rw [hds]

theorem runRecords_length (env : RunEnv) (imageInfo cmdOverride : String)
    (tr : Bool) (threads iterations : Nat) (commands : List String)
    (hf : ∀ t, t < threads → ∃ d, env.factory t = some d ∧ d.alwaysSucceeds) :
    (runRecords env imageInfo cmdOverride tr threads iterations commands).length
      = threads * iterations := by
  induction threads with
  | zero => simp [runRecords]
  | succ n ih =>
      unfold runRecords
      rw [List.range_succ, List.map_append, List.flatten_append, List.length_append]
      have hn := ih (fun t ht => hf t (by omega))
      unfold runRecords at hn
      rw [hn]
      rcases hf n (by omega) with ⟨d, hd, hsucc⟩
      have hw : workerRecords env imageInfo cmdOverride tr n iterations commands
          = (runThread d imageInfo cmdOverride tr n iterations commands (env.now n)).records := by
        unfold workerRecords
        rw [hd]
      simp only [List.map_cons, List.map_nil, List.flatten_cons, List.flatten_nil,
        List.append_nil, hw,
        runThread_records_of_alwaysSucceeds d imageInfo cmdOverride tr n iterations commands
          (env.now n) hsucc]
      ring

/-- The spawn phase completes without an early error return when every
thread's driver construction succeeds. -/
theorem spawnPhase_ok (factory : Nat → Option Driver) (k : Nat) :
    ∀ i : Nat, (∀ j, i ≤ j → j < i + k → (factory j).isSome) →
      (spawnPhase factory i k).2 = true := by
  induction k with
  | zero => intro i _; rfl
  | succ k ih =>
      intro i h
      rcases Option.isSome_iff_exists.mp (h i (Nat.le_refl i) (by omega)) with ⟨d, hd⟩
      unfold spawnPhase
      rw [hd]
      exact ih (i + 1) (fun j h1 h2 => h j (by omega) (by omega))

/-! ### The metrics key never reaches Durations -/

theorem metrics_notin_logError_key (key : String) (hkey : key ≠ "metrics")
    (r : OpResult) (de : DurErr) (h : "metrics" ∉ keys de.1) :
    "metrics" ∉ keys (logError key r de).1 := by
  intro hmem
  rcases (mem_keys_logError _ _ _ _).mp hmem with ha | ha
  · exact h ha
  · exact hkey ha.symm

theorem metrics_notin_dispatchVerb (runner : Driver) (ctr : Container)
    (cmd : String) (args : List String) (de : DurErr)
    (h : "metrics" ∉ keys de.1) :
    "metrics" ∉ keys (dispatchVerb runner ctr cmd args de).1 := by
  unfold dispatchVerb
  split
  · exact metrics_notin_logError_key "run" (by decide) _ _ h
  · exact metrics_notin_logError_key "run" (by decide) _ _ h
  · exact metrics_notin_logError_key "stop" (by decide) _ _ h
  · exact metrics_notin_logError_key "stop" (by decide) _ _ h
  · exact metrics_notin_logError_key "remove" (by decide) _ _ h
  · exact metrics_notin_logError_key "remove" (by decide) _ _ h
  · exact metrics_notin_logError_key "remove" (by decide) _ _ h
  · next x heq =>
      exact metrics_notin_logError_key cmd
        (fun hc => by rw [hc] at heq; exact absurd heq (by decide)) _ _ h
  · exact metrics_notin_logError_key "resume" (by decide) _ _ h
  · exact metrics_notin_logError_key "resume" (by decide) _ _ h
  · next x heq =>
      exact metrics_notin_logError_key cmd
        (fun hc => by rw [hc] at heq; exact absurd heq (by decide)) _ _ h
  · split
    · exact h
    · exact h
  · split
    · exact h
    · exact h
  · next x heq =>
      exact metrics_notin_logError_key cmd
        (fun hc => by rw [hc] at heq; exact absurd heq (by decide)) _ _ h
  · exact h

theorem metrics_notin_execCommand (runner : Driver) (ctr : Container)
    (raw : String) (de : DurErr) (h : "metrics" ∉ keys de.1) :
    "metrics" ∉ keys (execCommand runner ctr raw de).1 :=
  metrics_notin_dispatchVerb runner ctr (parseCommand raw).1 (parseCommand raw).2 de h

theorem metrics_notin_foldl (runner : Driver) (ctr : Container)
    (cmds : List String) :
    ∀ de : DurErr, "metrics" ∉ keys de.1 →
      "metrics" ∉ keys (cmds.foldl (fun de c => execCommand runner ctr c de) de).1 := by
  induction cmds with
  | nil => intro de h; exact h
  | cons c cmds ih =>
      intro de h
      exact ih (execCommand runner ctr c de) (metrics_notin_execCommand runner ctr c de h)

/-! ### Claim theorems -/

/-- Claim C1, counterexample.  With the always-succeeding mock driver and
the command sequence of scenario S3, the iteration executes the `stats`
command, the driver's `Stats` call succeeds (it succeeds on every
container), the record is emitted — and its `Durations` mapping contains
no entry for key `metrics`, contradicting the claim that every record of
such an iteration contains one. -/
theorem metrics_duration_counterexample :
    okDriver.statsCall (containerName 0 0) = true ∧
    (runIteration okDriver "img" "" false 0 ["run", "stats", "stop", "remove"]
      (fun _ => 0) 0).isSome = true ∧
    "metrics" ∉ keys
      ((runIteration okDriver "img" "" false 0 ["run", "stats", "stop", "remove"]
        (fun _ => 0) 0).getD ⟨[], [], 0⟩).Durations := by
  decide

/-- Claim C1, amended: a `metrics`/`stats` command whose `Stats` call
succeeds leaves both mappings of the iteration accumulator unchanged (in
particular it contributes no `Durations` entry), and no record ever
carries a `Durations` entry for key `metrics`; only failed `Stats` calls
are visible, as `Errors` entries. -/
theorem metrics_never_in_durations (runner : Driver) (ctr : Container) :
    (∀ (args : List String) (de : DurErr), runner.statsCall ctr = true →
        dispatchVerb runner ctr "stats" args de = de ∧
        dispatchVerb runner ctr "metrics" args de = de) ∧
    (∀ (commands : List String) (ts : Nat),
        "metrics" ∉ keys (iterationBody runner ctr commands ts).Durations) := by
  constructor
  · intro args de h
    constructor
    · have e : dispatchVerb runner ctr "stats" args de =
          if runner.statsCall ctr then de else (de.1, mapIncr de.2 "metrics") := rfl
      rw [e, if_pos h]
    · have e : dispatchVerb runner ctr "metrics" args de =
          if runner.statsCall ctr then de else (de.1, mapIncr de.2 "metrics") := rfl
      rw [e, if_pos h]
  · intro commands ts
    exact metrics_notin_foldl runner ctr commands ([], []) (by simp [keys])

/-- Witness for the amended claim C1 at a concrete driver. -/
theorem metrics_never_in_durations_witness :
    dispatchVerb okDriver "c" "stats" [] ([], []) = ([], []) ∧
    "metrics" ∉ keys (iterationBody okDriver "c" ["run", "stats"] 0).Durations :=
  ⟨((metrics_never_in_durations okDriver "c").1 [] ([], []) rfl).1,
   (metrics_never_in_durations okDriver "c").2 ["run", "stats"] 0⟩

/-- Claim C2: with per-thread drivers on which every operation succeeds,
`Run` aggregates exactly `threads × iterations` records, and the
aggregated vector is the concatenation of the per-worker record lists in
thread-index order. -/
theorem run_aggregates_threads_times_iterations (cb : CustomBench)
    (env : RunEnv) (threads iterations : Nat) (commands : List String)
    (hstats : cb.stats = []) (_hth : 1 ≤ threads) (_hit : 1 ≤ iterations)
    (hf : ∀ t, t < threads → ∃ d, env.factory t = some d ∧ d.alwaysSucceeds) :
    ((cb.Run env threads iterations commands).1.stats).length
        = threads * iterations ∧
    (cb.Run env threads iterations commands).1.stats =
      ((List.range threads).map
        (fun t => workerRecords env cb.imageInfo cb.cmdOverride cb.tr
                    t iterations commands)).flatten := by
  have hf2 : ∀ t, t < threads → (env.factory t).isSome := by
    intro t ht
    rcases hf t ht with ⟨d, hd, _⟩
    rw [hd]
    rfl
  rw [Run_spec cb env threads iterations commands hf2]
  refine ⟨?_, ?_⟩
  · simp only [hstats, List.nil_append]
    exact runRecords_length env cb.imageInfo cb.cmdOverride cb.tr
      threads iterations commands hf
  · simp only [hstats, List.nil_append]
    rfl

/-- Witness for claim C2 with two threads and two iterations. -/
theorem run_aggregates_threads_times_iterations_witness :
    ((cb0.Run okEnv 2 2 ["run", "stop", "remove"]).1.stats).length = 2 * 2 ∧
    (cb0.Run okEnv 2 2 ["run", "stop", "remove"]).1.stats =
      ((List.range 2).map
        (fun t => workerRecords okEnv cb0.imageInfo cb0.cmdOverride cb0.tr
                    t 2 ["run", "stop", "remove"])).flatten :=
  run_aggregates_threads_times_iterations cb0 okEnv 2 2 ["run", "stop", "remove"]
    rfl (by decide) (by decide)
    (fun t _ => ⟨okDriver, rfl, okDriver_alwaysSucceeds⟩)

/-- Claim C3: when the driver's `Create` succeeds on iterations `0..m-1`
of a worker and fails on iteration `m`, the worker emits exactly the
records of the completed iterations `0..m-1` — none for iteration `m` or
any later one — and its cleanup path still closes its driver and its
statistics channel.  (Each worker is a pure function of its own driver,
so other workers' outputs are untouched by construction.) -/
theorem create_failure_aborts_worker (runner : Driver)
    (imageInfo cmdOverride : String) (tr : Bool) (threadNum iterations m : Nat)
    (commands : List String) (now : Nat → Nat)
    (hm : m < iterations)
    (hok : ∀ j, j < m →
      (runner.create (containerName threadNum j) imageInfo cmdOverride true tr).isSome)
    (hfail : runner.create (containerName threadNum m) imageInfo cmdOverride true tr = none) :
    (runThread runner imageInfo cmdOverride tr threadNum iterations commands now).records
        = (List.range m).filterMap
            (runIteration runner imageInfo cmdOverride tr threadNum commands now) ∧
    (runThread runner imageInfo cmdOverride tr threadNum iterations commands now).records.length
        = m ∧
    (runThread runner imageInfo cmdOverride tr threadNum iterations commands now).driverClosed
        = true ∧
    (runThread runner imageInfo cmdOverride tr threadNum iterations commands now).channelClosed
        = true := by
  have hrec : (runThread runner imageInfo cmdOverride tr threadNum iterations commands now).records
      = (List.range m).filterMap
          (runIteration runner imageInfo cmdOverride tr threadNum commands now) := by
    unfold runThread
    rw [runThreadFrom_fail_at runner imageInfo cmdOverride tr threadNum commands now m
      iterations 0 (Nat.zero_le m) (by omega) (fun j _ hj => hok j hj) hfail,
      Nat.sub_zero, List.range_eq_range']
  refine ⟨hrec, ?_, rfl, rfl⟩
  rw [hrec, length_filterMap_of_forall_isSome]
  · exact List.length_range m
  · intro j hj
    have hjm : j < m := List.mem_range.mp hj
    rcases Option.isSome_iff_exists.mp (hok j hjm) with ⟨c, hc⟩
    unfold runIteration
    rw [hc]
    rfl

/-- Witness for claim C3: `Create` fails on iteration 2 of thread 1 with
three configured iterations; the worker emits exactly two records. -/
theorem create_failure_aborts_worker_witness :
    (runThread failCreateDriver "img" "" false 1 3 ["run"] (fun _ => 0)).records
        = (List.range 2).filterMap
            (runIteration failCreateDriver "img" "" false 1 ["run"] (fun _ => 0)) ∧
    (runThread failCreateDriver "img" "" false 1 3 ["run"] (fun _ => 0)).records.length = 2 ∧
    (runThread failCreateDriver "img" "" false 1 3 ["run"] (fun _ => 0)).driverClosed = true ∧
    (runThread failCreateDriver "img" "" false 1 3 ["run"] (fun _ => 0)).channelClosed = true :=
  create_failure_aborts_worker failCreateDriver "img" "" false 1 3 2 ["run"] (fun _ => 0)
    (by decide) (by decide) (by decide)

/-- Claim C4, counterexample.  In the step sequence of `Run` the
transition to `Completed` happens (line `cb.state = Completed`) before
the coordinator's final `Clean` call, not after it: in the concrete trace
for one thread both events occur, and the index of `finalClean` is not
below the index of `setCompleted`. -/
theorem clean_precedes_completed_counterexample :
    RunEvent.setCompleted ∈ runTrace okEnv 1 ∧
    RunEvent.finalClean ∈ runTrace okEnv 1 ∧
    ¬ (runTrace okEnv 1).indexOf RunEvent.finalClean
        < (runTrace okEnv 1).indexOf RunEvent.setCompleted := by
  decide

/-- Claim C4, amended: on every run whose spawn phase succeeds, the state
is set to `Completed` immediately before — not after — the final `Clean`
call; the two events close the trace in that order. -/
theorem completed_precedes_final_clean (env : RunEnv) (threads : Nat)
    (hf : ∀ t, t < threads → (env.factory t).isSome) :
    ∃ pre, runTrace env threads
      = pre ++ [RunEvent.setCompleted, RunEvent.finalClean] := by
  have hsp : (spawnPhase env.factory 0 threads).2 = true :=
    spawnPhase_ok env.factory threads 0 (fun j _ h2 => hf j (by omega))
  refine ⟨RunEvent.setRunning ::
    (spawnPhase env.factory 0 threads).1 ++ [RunEvent.joinWorkers, RunEvent.setElapsed] ++
    (List.range threads).map RunEvent.drainChannel, ?_⟩
  unfold runTrace
  rw [if_pos hsp]

/-- Witness for the amended claim C4. -/
theorem completed_precedes_final_clean_witness :
    ∃ pre, runTrace okEnv 1
      = pre ++ [RunEvent.setCompleted, RunEvent.finalClean] :=
  completed_precedes_final_clean okEnv 1 (fun _ _ => rfl)

/-- Claim C5: a per-thread driver construction failure makes `Run` return
an error and publish no partial results — the aggregated vector is left
exactly as it was.  (Already-spawned workers are total functions of their
own drivers in this embedding, so they trivially terminate; their output
is never drained.) -/
theorem thread_driver_failure_discards_results (cb : CustomBench)
    (env : RunEnv) (threads iterations : Nat) (commands : List String)
    (t : Nat) (ht : t < threads) (hfail : env.factory t = none) :
    (cb.Run env threads iterations commands).2 = some RunError.newDriverFailed ∧
    (cb.Run env threads iterations commands).1.stats = cb.stats := by
  have hc : collectDriversFrom env.factory 0 threads = none :=
    collectDriversFrom_eq_none env.factory t threads 0 (Nat.zero_le t) (by omega) hfail
  unfold CustomBench.Run
  rw [hc]
  exact ⟨rfl, rfl⟩

/-- Witness for claim C5. -/
theorem thread_driver_failure_discards_results_witness :
    (cb0.Run failEnv 1 1 ["run"]).2 = some RunError.newDriverFailed ∧
    (cb0.Run failEnv 1 1 ["run"]).1.stats = cb0.stats :=
  thread_driver_failure_discards_results cb0 failEnv 1 1 ["run"] 0 (by decide) rfl

/-- Claim C6: `Stats()` returns the aggregated vector when the state is
`Completed` and an empty vector in every other state. -/
theorem stats_empty_unless_completed (cb : CustomBench) :
    (cb.state = State.Completed → cb.Stats = cb.stats) ∧
    (cb.state ≠ State.Completed → cb.Stats = []) := by
  constructor <;> intro h <;> simp [CustomBench.Stats, h]

/-- Witness for claim C6: a `Completed` instance returns its vector, a
`Created` instance returns the empty vector. -/
theorem stats_empty_unless_completed_witness :
    ({ cb0 with state := State.Completed }).Stats
      = ({ cb0 with state := State.Completed }).stats ∧
    cb0.Stats = [] :=
  ⟨(stats_empty_unless_completed { cb0 with state := State.Completed }).1 rfl,
   (stats_empty_unless_completed cb0).2 (by decide)⟩

/-- Claim C7: dispatch is on the lowercased verb, aliased verbs are
recorded under canonical keys (`run`/`start` → `run`, `stop`/`kill` →
`stop`, `remove`/`erase`/`delete` → `remove`, `unpause`/`resume` →
`resume`), and the sequence `["START", "Kill", "DELETE"]` produces a
record whose `Durations` keys are exactly `run`, `stop`, `remove` (for
any driver — durations are recorded for failed commands too). -/
theorem canonical_key_dispatch :
    (∀ (runner : Driver) (ctr : Container) (cmd : String)
        (args : List String) (de : DurErr),
      (toLowerStr cmd = "run" ∨ toLowerStr cmd = "start") →
      dispatchVerb runner ctr cmd args de = logError "run" (runner.run ctr) de) ∧
    (∀ (runner : Driver) (ctr : Container) (cmd : String)
        (args : List String) (de : DurErr),
      (toLowerStr cmd = "stop" ∨ toLowerStr cmd = "kill") →
      dispatchVerb runner ctr cmd args de = logError "stop" (runner.stop ctr) de) ∧
    (∀ (runner : Driver) (ctr : Container) (cmd : String)
        (args : List String) (de : DurErr),
      (toLowerStr cmd = "remove" ∨ toLowerStr cmd = "erase" ∨ toLowerStr cmd = "delete") →
      dispatchVerb runner ctr cmd args de = logError "remove" (runner.remove ctr) de) ∧
    (∀ (runner : Driver) (ctr : Container) (cmd : String)
        (args : List String) (de : DurErr),
      (toLowerStr cmd = "unpause" ∨ toLowerStr cmd = "resume") →
      dispatchVerb runner ctr cmd args de = logError "resume" (runner.unpause ctr) de) ∧
    (∀ (runner : Driver) (ctr : Container) (ts : Nat),
      keys (iterationBody runner ctr ["START", "Kill", "DELETE"] ts).Durations
        = ["run", "stop", "remove"]) := by
  refine ⟨?_, ?_, ?_, ?_, ?_⟩
  · rintro runner ctr cmd args de (heq | heq) <;>
      (unfold dispatchVerb; rw [heq]; rfl)
  · rintro runner ctr cmd args de (heq | heq) <;>
      (unfold dispatchVerb; rw [heq]; rfl)
  · rintro runner ctr cmd args de (heq | heq | heq) <;>
      (unfold dispatchVerb; rw [heq]; rfl)
  · rintro runner ctr cmd args de (heq | heq) <;>
      (unfold dispatchVerb; rw [heq]; rfl)
  · intro runner ctr ts
    have hdur : (iterationBody runner ctr ["START", "Kill", "DELETE"] ts).Durations
        = [("run", (runner.run ctr).elapsed), ("stop", (runner.stop ctr).elapsed),
           ("remove", (runner.remove ctr).elapsed)] := rfl
    rw [hdur]
    rfl

/-- Witness for claim C7. -/
theorem canonical_key_dispatch_witness :
    dispatchVerb okDriver "c" "START" [] ([], []) = logError "run" (okDriver.run "c") ([], []) ∧
    dispatchVerb okDriver "c" "Kill" [] ([], []) = logError "stop" (okDriver.stop "c") ([], []) ∧
    dispatchVerb okDriver "c" "DELETE" [] ([], []) = logError "remove" (okDriver.remove "c") ([], []) ∧
    dispatchVerb okDriver "c" "Resume" [] ([], []) = logError "resume" (okDriver.unpause "c") ([], []) ∧
    keys (iterationBody okDriver "c" ["START", "Kill", "DELETE"] 0).Durations
      = ["run", "stop", "remove"] :=
  ⟨canonical_key_dispatch.1 okDriver "c" "START" [] ([], []) (Or.inr rfl),
   canonical_key_dispatch.2.1 okDriver "c" "Kill" [] ([], []) (Or.inr rfl),
   canonical_key_dispatch.2.2.1 okDriver "c" "DELETE" [] ([], []) (Or.inr (Or.inr rfl)),
   canonical_key_dispatch.2.2.2.1 okDriver "c" "Resume" [] ([], []) (Or.inr rfl),
   canonical_key_dispatch.2.2.2.2 okDriver "c" 0⟩

/-- Claim C8: `Run` never resets the aggregated vector — it only ever
appends to it — and two successive successful runs leave `Stats()`
returning the concatenation of the pre-existing records with both runs'
records. -/
theorem run_appends_stats (cb : CustomBench) (env1 env2 : RunEnv)
    (th1 it1 th2 it2 : Nat) (c1 c2 : List String)
    (hf1 : ∀ t, t < th1 → (env1.factory t).isSome)
    (hf2 : ∀ t, t < th2 → (env2.factory t).isSome) :
    (∃ appended, (cb.Run env1 th1 it1 c1).1.stats = cb.stats ++ appended) ∧
    ((cb.Run env1 th1 it1 c1).1.Run env2 th2 it2 c2).1.Stats
      = cb.stats
        ++ runRecords env1 cb.imageInfo cb.cmdOverride cb.tr th1 it1 c1
        ++ runRecords env2 cb.imageInfo cb.cmdOverride cb.tr th2 it2 c2 := by
  have h1 := Run_spec cb env1 th1 it1 c1 hf1
  constructor
  · exact ⟨runRecords env1 cb.imageInfo cb.cmdOverride cb.tr th1 it1 c1, by rw [h1]⟩
  · rw [h1]
    rw [Run_spec _ env2 th2 it2 c2 hf2]
    simp [CustomBench.Stats]

/-- Witness for claim C8 with two successive one-thread runs. -/
theorem run_appends_stats_witness :
    (∃ appended, (cb0.Run okEnv 1 1 ["run"]).1.stats = cb0.stats ++ appended) ∧
    ((cb0.Run okEnv 1 1 ["run"]).1.Run okEnv 1 1 ["run"]).1.Stats
      = cb0.stats
        ++ runRecords okEnv cb0.imageInfo cb0.cmdOverride cb0.tr 1 1 ["run"]
        ++ runRecords okEnv cb0.imageInfo cb0.cmdOverride cb0.tr 1 1 ["run"] :=
  run_appends_stats cb0 okEnv okEnv 1 1 1 1 ["run"] ["run"]
    (fun _ _ => rfl) (fun _ _ => rfl)

/-- Claim C9: `DockerDriver.Clean` returns nil on every invocation;
failing shell commands (other than the no-matching-container case) are
logged as warnings, never propagated. -/
theorem docker_clean_never_errors (stopRes rmRes : ShellResult) :
    (dockerClean stopRes rmRes).2 = none ∧
    (stopRes.err = true →
      strContains stopRes.out "requires at least 1 argument" = false →
      (dockerClean stopRes rmRes).1 ≠ []) := by
  refine ⟨rfl, fun h1 h2 => ?_⟩
  unfold dockerClean dockerCleanWarnings
  rw [h1, h2]
  simp

/-- Witness for claim C9 on a failing stop command. -/
theorem docker_clean_never_errors_witness :
    (dockerClean ⟨"boom", true⟩ ⟨"", false⟩).2 = none ∧
    (dockerClean ⟨"boom", true⟩ ⟨"", false⟩).1 ≠ [] :=
  ⟨(docker_clean_never_errors ⟨"boom", true⟩ ⟨"", false⟩).1,
   (docker_clean_never_errors ⟨"boom", true⟩ ⟨"", false⟩).2 rfl (by decide)⟩

/-- Claim C10: `Run` with zero threads spawns no workers and appends no
records (an initially empty vector stays empty), records the elapsed
duration, transitions to `Completed`, and returns the final `Clean`
result. -/
theorem run_zero_threads (cb : CustomBench) (env : RunEnv)
    (iterations : Nat) (commands : List String) :
    (cb.Run env 0 iterations commands).1.stats = cb.stats ∧
    (cb.stats = [] → (cb.Run env 0 iterations commands).1.stats = []) ∧
    (cb.Run env 0 iterations commands).1.state = State.Completed ∧
    (cb.Run env 0 iterations commands).1.elapsed = env.elapsed ∧
    (cb.Run env 0 iterations commands).2
      = (if env.cleanErr then some RunError.cleanFailed else none) := by
  have h := Run_spec cb env 0 iterations commands (fun t ht => absurd ht (by omega))
  rw [h]
  refine ⟨?_, ?_, rfl, rfl, rfl⟩
  · simp [runRecords]
  · intro h0
    simp [runRecords, h0]

/-- Witness for claim C10. -/
theorem run_zero_threads_witness :
    (cb0.Run okEnv 0 3 ["run"]).1.stats = [] ∧
    (cb0.Run okEnv 0 3 ["run"]).1.state = State.Completed ∧
    (cb0.Run okEnv 0 3 ["run"]).2 = none :=
  ⟨(run_zero_threads cb0 okEnv 3 ["run"]).2.1 rfl,
   (run_zero_threads cb0 okEnv 3 ["run"]).2.2.1,
   (run_zero_threads cb0 okEnv 3 ["run"]).2.2.2.2⟩

end Bucketbench
